import Mathlib

/-!
Verification of the position-indexed task-tool protocol of the PHASEIII
todo backend.

The development embeds, as executable Lean definitions:
  * the Task Store Adapter of src/mcp_server/server.py
    (add_task_tool, list_tasks_tool, update_task_tool, complete_task_tool,
    delete_task_tool, get_task_by_position), and
  * the tool-resolution loop of the orchestrators
    (src/backend/api/chat.py chat_endpoint, and
    src/backend/ai_agent/agent.py TodoAgent.process_message).

The database is modelled as the list of task rows in insertion order
(SQLite scan order for an unordered SELECT), together with a counter
supplying the opaque identifier assigned at row creation.  Timestamps are
abstract Nat values passed in as the current time.  HTTPException with
status 404 is modelled as ToolError.notFound, status 400 as
ToolError.validation.
-/

namespace TodoSpec

/-- One task row, with the fields used by server.py
(backend/models/task_models.py is not part of the sources; its fields are
those read and written by server.py, and its identifier is the opaque
value assigned at creation). -/
structure Task where
  id : Nat
  title : String
  description : String
  completed : Bool
  user_id : String
  created_at : Nat
  updated_at : Nat
deriving DecidableEq, Repr

instance : Inhabited Task :=
  ⟨{ id := 0, title := "", description := "", completed := false,
     user_id := "", created_at := 0, updated_at := 0 }⟩

/-- The task table: rows in insertion order, plus the next opaque
identifier the database will assign. -/
structure Store where
  rows : List Task
  nextId : Nat
deriving DecidableEq, Repr

/-- Errors raised by the tool endpoints: HTTP 404 and HTTP 400. -/
inductive ToolError where
  | notFound (detail : String)
  | validation (detail : String)
deriving DecidableEq, Repr

def isOkB {α : Type} : Except ToolError α → Bool
  | .ok _ => true
  | .error _ => false

def isNotFoundB {α : Type} : Except ToolError α → Bool
  | .error (.notFound _) => true
  | _ => false

def isValidationB {α : Type} : Except ToolError α → Bool
  | .error (.validation _) => true
  | _ => false

/-- The fresh full scan of one owner's tasks:
select(Task).where(Task.user_id == user_id) with no ordering clause,
i.e. the rows in insertion order restricted to the owner. -/
def userScan (uid : String) (s : Store) : List Task :=
  s.rows.filter (fun t => t.user_id == uid)

/-- Remove the k-th (0-based) row satisfying p from the table, leaving
every other row in place: session.delete on the row found by indexing
into the filtered scan. -/
def eraseNthWhere {α : Type} (p : α → Bool) : Nat → List α → List α
  | _, [] => []
  | k, t :: ts =>
    if p t then
      match k with
      | 0 => ts
      | k' + 1 => t :: eraseNthWhere p k' ts
    else t :: eraseNthWhere p k ts

/-- Replace the k-th (0-based) row satisfying p by f of it, leaving every
other row in place: session.add + commit of the mutated ORM row found by
indexing into the filtered scan. -/
def modifyNthWhere {α : Type} (p : α → Bool) (f : α → α) : Nat → List α → List α
  | _, [] => []
  | k, t :: ts =>
    if p t then
      match k with
      | 0 => f t :: ts
      | k' + 1 => t :: modifyNthWhere p f k' ts
    else t :: modifyNthWhere p f k ts

def notFoundMsg (pos : Int) : String :=
  "Task at position " ++ toString pos ++ " not found"

/-- The whitespace characters Python's str.strip() removes. -/
def isPySpace (c : Char) : Bool :=
  c = ' ' ∨ c = '\t' ∨ c = '\n' ∨ c = '\r' ∨ c = '\x0b' ∨ c = '\x0c'

/-- Python str.strip(): the string with leading and trailing whitespace
removed. -/
def pyStrip (str : String) : String :=
  String.mk (((str.data.dropWhile isPySpace).reverse.dropWhile
    isPySpace).reverse)

/-- server.py get_task_by_position: fresh scan of the owner's tasks,
404 when position < 1 or position > len(tasks), otherwise the task at the
1-indexed position together with its 0-based index. -/
def getTaskByPosition (uid : String) (pos : Int) (s : Store) :
    Except ToolError (Task × Nat) :=
  let tasks := userScan uid s
  if pos < 1 ∨ pos > (tasks.length : Int) then
    .error (.notFound (notFoundMsg pos))
  else
    .ok (tasks.getD (pos - 1).toNat default, (pos - 1).toNat)

/-- server.py add_task_tool: 400 when the title is empty or blank after
strip(), 400 when user_id is empty; otherwise insert one new row with
completed False, both timestamps set to now, and the next opaque id. -/
def addTask (uid title description : String) (now : Nat) (s : Store) :
    Except ToolError (Store × Task) :=
  if pyStrip title = "" then .error (.validation "Title is required")
  else if uid = "" then .error (.validation "User ID is required")
  else
    let t : Task :=
      { id := s.nextId, title := title, description := description,
        completed := false, user_id := uid, created_at := now,
        updated_at := now }
    .ok ({ rows := s.rows ++ [t], nextId := s.nextId + 1 }, t)

/-- The response shape built by server.py (TaskResponse): a copy of the
row's fields, its opaque id included. -/
structure TaskResponse where
  id : Nat
  title : String
  description : String
  completed : Bool
  user_id : String
  created_at : Nat
  updated_at : Nat
deriving DecidableEq, Repr

def toResponse (t : Task) : TaskResponse :=
  { id := t.id, title := t.title, description := t.description,
    completed := t.completed, user_id := t.user_id,
    created_at := t.created_at, updated_at := t.updated_at }

/-- One entry of the list_tasks_tool payload: the response dict plus the
position number added by the enumeration loop. -/
structure TaggedTask where
  resp : TaskResponse
  position : Nat
deriving DecidableEq, Repr

structure Summary where
  total : Nat
  pending : Nat
  completed : Nat
deriving DecidableEq, Repr

structure ListResult where
  tasks : List TaggedTask
  summary : Summary
  pending_tasks : List TaggedTask
  completed_tasks : List TaggedTask
deriving DecidableEq, Repr

/-- for idx, task in enumerate(tasks, 1): tag each scan entry with its
1-indexed rank. -/
def tagFrom (i : Nat) : List Task → List TaggedTask
  | [] => []
  | t :: ts => { resp := toResponse t, position := i } :: tagFrom (i + 1) ts

/-- server.py list_tasks_tool: 400 when user_id is empty; otherwise tag
the fresh scan with positions 1..N, partition into pending and completed
preserving order, and return pending first, then completed, plus the
summary counts. -/
def listTasks (uid : String) (s : Store) : Except ToolError ListResult :=
  if uid = "" then .error (.validation "User ID is required")
  else
    let tasks := userScan uid s
    let tagged := tagFrom 1 tasks
    let pending := tagged.filter (fun x => !x.resp.completed)
    let completedL := tagged.filter (fun x => x.resp.completed)
    .ok { tasks := pending ++ completedL,
          summary := { total := tasks.length, pending := pending.length,
                       completed := completedL.length },
          pending_tasks := pending, completed_tasks := completedL }

/-- server.py update_task_tool: 400 when user_id is empty, 400 when
neither title nor description is given, 404 when the position is out of
range of the fresh scan; otherwise apply only the provided fields to the
row at the position and refresh updated_at. -/
def updateTask (uid : String) (pos : Int) (title? description? : Option String)
    (now : Nat) (s : Store) : Except ToolError (Store × Task) :=
  if uid = "" then .error (.validation "User ID is required")
  else if title? = none ∧ description? = none then
    .error (.validation
      "At least one field (title or description) must be provided for update")
  else
    let tasks := userScan uid s
    if pos < 1 ∨ pos > (tasks.length : Int) then
      .error (.notFound (notFoundMsg pos))
    else
      let f : Task → Task := fun t =>
        { t with title := title?.getD t.title,
                 description := description?.getD t.description,
                 updated_at := now }
      let old := tasks.getD (pos - 1).toNat default
      .ok ({ s with rows := modifyNthWhere (fun t => t.user_id == uid) f
                              (pos - 1).toNat s.rows }, f old)

/-- server.py complete_task_tool: 400 when user_id is empty, 404 when the
position is out of range of the fresh scan; otherwise set the completion
flag of the row at the position and refresh updated_at. -/
def completeTask (uid : String) (pos : Int) (completed : Bool) (now : Nat)
    (s : Store) : Except ToolError (Store × Task) :=
  if uid = "" then .error (.validation "User ID is required")
  else
    let tasks := userScan uid s
    if pos < 1 ∨ pos > (tasks.length : Int) then
      .error (.notFound (notFoundMsg pos))
    else
      let f : Task → Task := fun t =>
        { t with completed := completed, updated_at := now }
      let old := tasks.getD (pos - 1).toNat default
      .ok ({ s with rows := modifyNthWhere (fun t => t.user_id == uid) f
                              (pos - 1).toNat s.rows }, f old)

def deleteMsg (pos : Int) : String :=
  "Task at position " ++ toString pos ++ " deleted successfully"

/-- server.py delete_task_tool: 400 when user_id is empty, 404 when the
position is out of range of the fresh scan; otherwise permanently remove
the row at the position and return the confirmation message. -/
def deleteTask (uid : String) (pos : Int) (s : Store) :
    Except ToolError (Store × String) :=
  if uid = "" then .error (.validation "User ID is required")
  else
    let tasks := userScan uid s
    if pos < 1 ∨ pos > (tasks.length : Int) then
      .error (.notFound (notFoundMsg pos))
    else
      .ok ({ s with rows := eraseNthWhere (fun t => t.user_id == uid)
                              (pos - 1).toNat s.rows }, deleteMsg pos)

/-- Run a sequence of position-addressed deletions, each resolving its
position against a fresh scan of the store left by the previous one, and
stopping at the first failure.  A .ok result therefore means every single
deletion succeeded. -/
def runDeletes (uid : String) : List Nat → Store → Except ToolError Store
  | [], s => .ok s
  | p :: ps, s =>
    match deleteTask uid (p : Int) s with
    | .ok (s2, _) => runDeletes uid ps s2
    | .error e => .error e

/-- Run a sequence of position-addressed deletions the way the
orchestrator loop does: a failed deletion is captured as a tool result and
the loop continues on the unchanged store. -/
def runDeletesTolerant (uid : String) (ps : List Nat) (s : Store) : Store :=
  ps.foldl
    (fun (cur : Store) (p : Nat) =>
      match deleteTask uid (p : Int) cur with
      | .ok (s2, _) => s2
      | .error _ => cur)
    s

/-- The descending position sequence [n, n-1, ..., 1]. -/
def downFrom : Nat → List Nat
  | 0 => []
  | n + 1 => (n + 1) :: downFrom n

/-- The ascending position sequence [s, s+1, ..., s+n-1]. -/
def upFrom (start : Nat) : Nat → List Nat
  | 0 => []
  | n + 1 => start :: upFrom (start + 1) n

/-- The ascending position sequence [1, 2, ..., n]. -/
def upTo (n : Nat) : List Nat := upFrom 1 n

/-!  The tool-calling orchestrator (src/backend/api/chat.py).  -/

/-- The arguments of one model-requested tool invocation
(json.loads of tool_call.function.arguments, plus whatever the
orchestrator injects).  Absent keys are none. -/
structure ToolArgs where
  title : Option String := none
  description : Option String := none
  task_position : Option Int := none
  completed : Option Bool := none
  user_id : Option String := none
  task_id : Option Nat := none
deriving DecidableEq, Repr

/-- One tool call returned by the model. -/
structure ToolCall where
  id : String
  name : String
  args : ToolArgs
deriving DecidableEq, Repr

/-- The payload call_mcp_tool hands back to the orchestrator loop: the
JSON body of a successful tool endpoint, or the error dict built for an
unknown tool, a failed lookup, or a non-200 response. -/
inductive ToolResult where
  | taskRes (t : TaskResponse)
  | listRes (r : ListResult)
  | deleteRes (message : String)
  | errRes (msg : String)
deriving DecidableEq, Repr

def errDetail : ToolError → String
  | .notFound d => d
  | .validation d => d

/-- chat.py get_task_position_from_id: call list_tasks for the user and
return the position of the entry whose id matches, none when the list
call fails or no entry matches. -/
def getTaskPositionFromId (taskId : Nat) (uid : String) (s : Store) :
    Option Nat :=
  match listTasks uid s with
  | .error _ => none
  | .ok r => (r.tasks.find? (fun tg => tg.resp.id == taskId)).map
      (fun tg => tg.position)

def httpFail (e : ToolError) : ToolResult :=
  .errRes ("Tool call failed: " ++ errDetail e)

/-- A request body missing a field that the endpoint's pydantic model
requires is rejected before the handler runs (HTTP 422, a non-200
response). -/
def missingField : ToolResult :=
  .errRes "Tool call failed: missing required field"

/-- The HTTP request to the tool endpoint /tools/{name}.  The endpoint
request models require user_id, title for add_task, and task_position
for the three position-addressed tools; a missing required field is
rejected before the handler runs (non-200, captured as an error result).
A failing call leaves the store unchanged. -/
def callToolEndpoint (name : String) (args : ToolArgs) (now : Nat)
    (s : Store) : Store × ToolResult :=
  if name = "add_task" then
    match args.title, args.user_id with
    | some title, some uid =>
      match addTask uid title (args.description.getD "") now s with
      | .ok (s2, t) => (s2, .taskRes (toResponse t))
      | .error e => (s, httpFail e)
    | _, _ => (s, missingField)
  else if name = "list_tasks" then
    match args.user_id with
    | some uid =>
      match listTasks uid s with
      | .ok r => (s, .listRes r)
      | .error e => (s, httpFail e)
    | none => (s, missingField)
  else if name = "update_task" then
    match args.task_position, args.user_id with
    | some pos, some uid =>
      match updateTask uid pos args.title args.description now s with
      | .ok (s2, t) => (s2, .taskRes (toResponse t))
      | .error e => (s, httpFail e)
    | _, _ => (s, missingField)
  else if name = "complete_task" then
    match args.task_position, args.user_id with
    | some pos, some uid =>
      match completeTask uid pos (args.completed.getD true) now s with
      | .ok (s2, t) => (s2, .taskRes (toResponse t))
      | .error e => (s, httpFail e)
    | _, _ => (s, missingField)
  else if name = "delete_task" then
    match args.task_position, args.user_id with
    | some pos, some uid =>
      match deleteTask uid pos s with
      | .ok (s2, m) => (s2, .deleteRes m)
      | .error e => (s, httpFail e)
    | _, _ => (s, missingField)
  else (s, .errRes ("Unknown tool: " ++ name))

/-- chat.py call_mcp_tool: look the name up among the five endpoints
(unknown names yield an error dict); for update/complete/delete, map a
task_id given without a task_position to a position via
get_task_position_from_id (this needs a user_id; failure yields an error
dict); then make the HTTP request to the endpoint. -/
def callMcpTool (name : String) (args : ToolArgs) (now : Nat) (s : Store) :
    Store × ToolResult :=
  if name = "add_task" ∨ name = "list_tasks" ∨ name = "update_task" ∨
      name = "complete_task" ∨ name = "delete_task" then
    if (name = "update_task" ∨ name = "complete_task" ∨ name = "delete_task")
        ∧ args.task_id.isSome ∧ args.task_position = none then
      match args.task_id with
      | some tid =>
        match args.user_id with
        | some uid =>
          if uid = "" then (s, .errRes "Missing user_id for task lookup")
          else
            match getTaskPositionFromId tid uid s with
            | some p =>
              callToolEndpoint name
                { args with task_position := some (p : Int), task_id := none }
                now s
            | none =>
              (s, .errRes ("Could not find task with ID: " ++ toString tid))
        | none => (s, .errRes "Missing user_id for task lookup")
      | none => callToolEndpoint name args now s
    else callToolEndpoint name args now s
  else (s, .errRes ("Unknown tool: " ++ name))

/-- The audit record of one executed tool invocation, as saved by
save_tool_invocation_to_db: tool name, the parameters actually used
(function_args after the orchestrator's injection), and the result.  The
cached result is also the tool message fed to the second model call. -/
structure ToolRecord where
  callId : String
  name : String
  params : ToolArgs
  result : ToolResult
deriving DecidableEq, Repr

/-- chat.py chat_endpoint tool loop: for each tool call, in the order the
model returned them, overwrite user_id with the authenticated caller's id
(function_args["user_id"] = current_user.id), execute the tool against
the store, and record the invocation. -/
def execCalls (auth : String) (now : Nat) :
    List ToolCall → Store → Store × List ToolRecord
  | [], s => (s, [])
  | c :: cs, s =>
    let args := { c.args with user_id := some auth }
    let step := callMcpTool c.name args now s
    let rest := execCalls auth now cs step.1
    (rest.1,
     { callId := c.id, name := c.name, params := args, result := step.2 }
       :: rest.2)

/-- agent.py TodoAgent.process_message injection: the user_id is added to
the function arguments only when the model did not supply one. -/
def agentInjectUserId (args : ToolArgs) (auth : String) : ToolArgs :=
  if args.user_id = none then { args with user_id := some auth } else args

/-- agent.py TodoAgent.process_message tool loop: same shape as the
chat_endpoint loop, but with the conditional user_id injection. -/
def agentExecCalls (auth : String) (now : Nat) :
    List ToolCall → Store → Store × List ToolRecord
  | [], s => (s, [])
  | c :: cs, s =>
    let args := agentInjectUserId c.args auth
    let step := callMcpTool c.name args now s
    let rest := agentExecCalls auth now cs step.1
    (rest.1,
     { callId := c.id, name := c.name, params := args, result := step.2 }
       :: rest.2)

/-- A tool call with its model-supplied user_id argument removed: the
part of a model response the chat_endpoint loop can actually depend on
after its unconditional injection. -/
def scrubUserId (c : ToolCall) : ToolCall :=
  { c with args := { c.args with user_id := none } }

/-- The positions carried by the delete_task invocations of a turn, in
the order they were issued. -/
def issuedDeletePositions (trace : List ToolRecord) : List Int :=
  trace.filterMap
    (fun inv => if inv.name = "delete_task" then inv.params.task_position
                else none)

/-- The tool results fed back to the model in the second call: one tool
message per invocation, its content the cached result
(json.dumps(tool_result)), in invocation order. -/
def feedbackResults (trace : List ToolRecord) : List ToolResult :=
  trace.map (fun inv => inv.result)

/-- The task storage identifiers occurring in one tool result payload. -/
def resultIds : ToolResult → List Nat
  | .taskRes t => [t.id]
  | .listRes r => r.tasks.map (fun tg => tg.resp.id)
  | .deleteRes _ => []
  | .errRes _ => []

/-- All task storage identifiers contained in the tool results fed back
to the model in the second call of a turn. -/
def feedbackIds (trace : List ToolRecord) : List Nat :=
  (feedbackResults trace).flatMap resultIds

/-- The parameter names of the tool schemas presented to the model
(chat.py get_mcp_tools). -/
def mcpToolSchemas : List (String × List String) :=
  [("add_task", ["title", "description"]),
   ("list_tasks", []),
   ("update_task", ["task_position", "title", "description"]),
   ("complete_task", ["task_position", "completed"]),
   ("delete_task", ["task_position"])]

/-- Python: x or dflt, for an optional string (None and "" are falsy). -/
def pythonOr (content : Option String) (dflt : String) : String :=
  match content with
  | none => dflt
  | some str => if str = "" then dflt else str

/-- The count-naming confirmation string built at chat.py line 796. -/
def countMessage (opsCount : Nat) : String :=
  "I\x27ve completed " ++ toString opsCount ++ " task" ++
    (if opsCount > 1 then "s" else "") ++ " for you!"

/-- chat.py lines 786-798: the final reply after tool execution.
chat_response_content = final_message.content or "Operation completed
successfully."; then, if that is empty and the final message carried tool
calls, the count-naming confirmation would be produced. -/
def computeFinalContent (content : Option String) (finalToolCalls : Nat)
    (opsCount : Nat) : String :=
  let c := pythonOr content "Operation completed successfully."
  if c = "" ∧ finalToolCalls ≠ 0 then
    if finalToolCalls > 0 then countMessage opsCount
    else "Operation completed successfully."
  else c

/-!  Concrete inputs used by witnesses and counterexamples.  -/

def demoTask (i : Nat) (ti : String) (uid : String) : Task :=
  { id := i, title := ti, description := "", completed := false,
    user_id := uid, created_at := 0, updated_at := 0 }

/-- Three tasks A, B, C added in that order by owner alice. -/
def demo3 : Store :=
  { rows := [demoTask 0 "A" "alice", demoTask 1 "B" "alice",
             demoTask 2 "C" "alice"], nextId := 3 }

/-- Replace the k-th (0-based) element of a list by f of it. -/
def modifyIdx {α : Type} (f : α → α) : Nat → List α → List α
  | _, [] => []
  | 0, a :: as => f a :: as
  | k + 1, a :: as => a :: modifyIdx f k as

/-- An empty table. -/
def store0 : Store := { rows := [], nextId := 0 }

/-- The second demo task after update_task at position 2 with the new
title B2 at time 9. -/
def demoTaskB2 : Task :=
  { id := 1, title := "B2", description := "", completed := false,
    user_id := "alice", created_at := 0, updated_at := 9 }

/-- The demo store after that update. -/
def demo3B2 : Store :=
  { rows := [demoTask 0 "A" "alice", demoTaskB2, demoTask 2 "C" "alice"],
    nextId := 3 }

/-- A model response asking to delete positions 1 and 2, in that
ascending order. -/
def ascendingDeleteCalls : List ToolCall :=
  [{ id := "c1", name := "delete_task",
     args := { task_position := some 1 } },
   { id := "c2", name := "delete_task",
     args := { task_position := some 2 } }]

/-- An add_task call in which the model itself supplied a user_id. -/
def callMallory : ToolCall :=
  { id := "c1", name := "add_task",
    args := { title := some "x", user_id := some "mallory" } }

/-- The same add_task call with no model-supplied user_id. -/
def callNoUser : ToolCall :=
  { id := "c1", name := "add_task", args := { title := some "x" } }

/-- A plain add_task call. -/
def callAddMilk : ToolCall :=
  { id := "c1", name := "add_task", args := { title := some "Buy milk" } }

/-!  Lemmas about the embedding.  -/

theorem filter_eraseNthWhere {α : Type} (p : α → Bool) :
    ∀ (l : List α) (k : Nat),
      (eraseNthWhere p k l).filter p = (l.filter p).eraseIdx k := by
  intro l
  induction l with
  | nil => intro k; rfl
  | cons a as ih =>
    intro k
    by_cases hp : p a
    · cases k with
      | zero => simp [eraseNthWhere, hp, List.filter_cons]
      | succ k' => simp [eraseNthWhere, hp, List.filter_cons, ih]
    · simp [eraseNthWhere, hp, List.filter_cons, ih]

theorem modifyIdx_nil {α : Type} (f : α → α) (k : Nat) :
    modifyIdx f k ([] : List α) = [] := by
  cases k <;> rfl

theorem filter_modifyNthWhere {α : Type} (p : α → Bool) (f : α → α)
    (hf : ∀ a, p (f a) = p a) :
    ∀ (l : List α) (k : Nat),
      (modifyNthWhere p f k l).filter p = modifyIdx f k (l.filter p) := by
  intro l
  induction l with
  | nil => intro k; simp [modifyNthWhere, modifyIdx_nil]
  | cons a as ih =>
    intro k
    by_cases hp : p a
    · cases k with
      | zero => simp [modifyNthWhere, hp, List.filter_cons, hf, modifyIdx]
      | succ k' => simp [modifyNthWhere, hp, List.filter_cons, ih, modifyIdx]
    · simp [modifyNthWhere, hp, List.filter_cons, ih]

theorem modifyIdx_get?_ne {α : Type} (f : α → α) :
    ∀ (l : List α) (j k : Nat), k ≠ j →
      (modifyIdx f j l).get? k = l.get? k := by
  intro l
  induction l with
  | nil => intro j k _; rw [modifyIdx_nil]
  | cons a as ih =>
    intro j k hk
    cases j with
    | zero =>
      cases k with
      | zero => omega
      | succ k' => simp [modifyIdx]
    | succ j' =>
      cases k with
      | zero => simp [modifyIdx]
      | succ k' =>
        have hne : k' ≠ j' := by omega
        simpa [modifyIdx] using ih j' k' hne

theorem modifyIdx_get?_eq {α : Type} (f : α → α) :
    ∀ (l : List α) (j : Nat),
      (modifyIdx f j l).get? j = (l.get? j).map f := by
  intro l
  induction l with
  | nil => intro j; rw [modifyIdx_nil]; rfl
  | cons a as ih =>
    intro j
    cases j with
    | zero => rfl
    | succ j' => simpa [modifyIdx] using ih j'

theorem head?_eraseIdx {α : Type} :
    ∀ (l : List α) (k : Nat), 1 ≤ k → (l.eraseIdx k).head? = l.head? := by
  intro l k hk
  cases l with
  | nil => rfl
  | cons a as =>
    cases k with
    | zero => omega
    | succ k' => rfl

theorem mem_upFrom :
    ∀ (n start p : Nat), p ∈ upFrom start n → start ≤ p := by
  intro n
  induction n with
  | zero => intro start p hp; simp [upFrom] at hp
  | succ n ih =>
    intro start p hp
    simp only [upFrom, List.mem_cons] at hp
    rcases hp with rfl | hp
    · exact Nat.le_refl p
    · have := ih (start + 1) p hp
      omega

theorem userScan_erase (uid : String) (s : Store) (k : Nat) :
    userScan uid
      { s with rows := eraseNthWhere (fun t => t.user_id == uid) k s.rows } =
      (userScan uid s).eraseIdx k := by
  simp only [userScan]
  exact filter_eraseNthWhere (fun t => t.user_id == uid) s.rows k

theorem userScan_modify (uid : String) (s : Store) (k : Nat) (f : Task → Task)
    (hf : ∀ a, (f a).user_id = a.user_id) :
    userScan uid
      { s with rows := modifyNthWhere (fun t => t.user_id == uid) f k s.rows } =
      modifyIdx f k (userScan uid s) := by
  simp only [userScan]
  exact filter_modifyNthWhere (fun t => t.user_id == uid) f
    (fun a => by simp [hf a]) s.rows k

theorem deleteTask_eq_ok (uid : String) (pos : Int) (s : Store)
    (h : uid ≠ "") (h1 : 1 ≤ pos)
    (h2 : pos ≤ ((userScan uid s).length : Int)) :
    deleteTask uid pos s =
      .ok ({ s with rows := eraseNthWhere (fun t => t.user_id == uid)
                              (pos - 1).toNat s.rows }, deleteMsg pos) := by
  simp only [deleteTask]
  rw [if_neg h, if_neg (by omega)]

theorem deleteTask_ok_inv (uid : String) (pos : Int) (s s2 : Store)
    (m : String) (hdel : deleteTask uid pos s = .ok (s2, m)) :
    uid ≠ "" ∧ 1 ≤ pos ∧ pos ≤ ((userScan uid s).length : Int) ∧
      userScan uid s2 = (userScan uid s).eraseIdx (pos - 1).toNat := by
  by_cases h : uid = ""
  · simp [deleteTask, h] at hdel
  · by_cases hr : pos < 1 ∨ pos > ((userScan uid s).length : Int)
    · simp [deleteTask, h, hr] at hdel
    · rw [deleteTask_eq_ok uid pos s h (by omega) (by omega)] at hdel
      injection hdel with hpair
      injection hpair with hs2 hm
      refine ⟨h, by omega, by omega, ?_⟩
      rw [← hs2]
      exact userScan_erase uid s (pos - 1).toNat

theorem deleteTask_isOk_iff (uid : String) (pos : Int) (s : Store)
    (h : uid ≠ "") :
    isOkB (deleteTask uid pos s) = true ↔
      (1 ≤ pos ∧ pos ≤ ((userScan uid s).length : Int)) := by
  by_cases hr : pos < 1 ∨ pos > ((userScan uid s).length : Int)
  · simp [deleteTask, h, hr, isOkB]
    omega
  · rw [deleteTask_eq_ok uid pos s h (by omega) (by omega)]
    simp [isOkB]
    omega

theorem getTaskByPosition_isOk_iff (uid : String) (pos : Int) (s : Store) :
    isOkB (getTaskByPosition uid pos s) = true ↔
      (1 ≤ pos ∧ pos ≤ ((userScan uid s).length : Int)) := by
  by_cases hr : pos < 1 ∨ pos > ((userScan uid s).length : Int)
  · simp [getTaskByPosition, hr, isOkB]
    omega
  · simp [getTaskByPosition, hr, isOkB]
    omega

theorem completeTask_eq_ok (uid : String) (pos : Int) (c : Bool) (now : Nat)
    (s : Store) (h : uid ≠ "") (h1 : 1 ≤ pos)
    (h2 : pos ≤ ((userScan uid s).length : Int)) :
    completeTask uid pos c now s =
      .ok ({ s with rows := modifyNthWhere (fun t => t.user_id == uid)
                      (fun t => { t with completed := c, updated_at := now })
                      (pos - 1).toNat s.rows },
           { (userScan uid s).getD (pos - 1).toNat default with
               completed := c, updated_at := now }) := by
  simp only [completeTask]
  rw [if_neg h, if_neg (by omega)]

theorem completeTask_ok_inv (uid : String) (pos : Int) (c : Bool) (now : Nat)
    (s s2 : Store) (t : Task)
    (hc : completeTask uid pos c now s = .ok (s2, t)) :
    uid ≠ "" ∧ 1 ≤ pos ∧ pos ≤ ((userScan uid s).length : Int) ∧
      userScan uid s2 =
        modifyIdx (fun a => { a with completed := c, updated_at := now })
          (pos - 1).toNat (userScan uid s) := by
  by_cases h : uid = ""
  · simp [completeTask, h] at hc
  · by_cases hr : pos < 1 ∨ pos > ((userScan uid s).length : Int)
    · simp [completeTask, h, hr] at hc
    · rw [completeTask_eq_ok uid pos c now s h (by omega) (by omega)] at hc
      injection hc with hpair
      injection hpair with hs2 ht
      refine ⟨h, by omega, by omega, ?_⟩
      rw [← hs2]
      exact userScan_modify uid s (pos - 1).toNat _ (fun a => rfl)

/-- Deleting at descending positions N, N-1, ..., 1, each resolved
against a fresh scan, succeeds at every step and empties the owner's
collection. -/
theorem runDeletes_downFrom (uid : String) (h : uid ≠ "") :
    ∀ (n : Nat) (s : Store), (userScan uid s).length = n →
      ∃ s2, runDeletes uid (downFrom n) s = .ok s2 ∧ userScan uid s2 = [] := by
  intro n
  induction n with
  | zero =>
    intro s hs
    exact ⟨s, rfl, List.length_eq_zero.mp hs⟩
  | succ n ih =>
    intro s hs
    have hdel := deleteTask_eq_ok uid ((n + 1 : Nat) : Int) s h (by omega)
      (by rw [hs])
    have hscan : userScan uid
        { s with rows := eraseNthWhere (fun t => t.user_id == uid)
                  (((n + 1 : Nat) : Int) - 1).toNat s.rows } =
        (userScan uid s).eraseIdx n := by
      rw [userScan_erase]
      congr 1
      omega
    have hlen : ((userScan uid s).eraseIdx n).length = n := by
      simp [List.length_eraseIdx, hs]
    obtain ⟨s2, hrun, hempty⟩ := ih
      { s with rows := eraseNthWhere (fun t => t.user_id == uid)
                (((n + 1 : Nat) : Int) - 1).toNat s.rows }
      (by rw [hscan]; exact hlen)
    refine ⟨s2, ?_, hempty⟩
    simp only [downFrom, runDeletes, hdel]
    exact hrun

/-- A tolerant deletion run whose positions are all at least 2 never
removes the head of the owner's scan. -/
theorem tolerant_preserves_head (uid : String) (t : Task) :
    ∀ (ps : List Nat), (∀ p ∈ ps, 2 ≤ p) → ∀ s : Store,
      (userScan uid s).head? = some t →
      (userScan uid (runDeletesTolerant uid ps s)).head? = some t := by
  intro ps
  induction ps with
  | nil => intro _ s hh; exact hh
  | cons p ps ih =>
    intro hmem s hh
    have hp : 2 ≤ p := hmem p (List.mem_cons_self p ps)
    have hstep :
        (userScan uid (match deleteTask uid (p : Int) s with
          | .ok (s2, _) => s2
          | .error _ => s)).head? = some t := by
      cases hdel : deleteTask uid (p : Int) s with
      | error e => simpa using hh
      | ok pr =>
        obtain ⟨s2, m⟩ := pr
        obtain ⟨_, _, _, hscan⟩ := deleteTask_ok_inv uid (p : Int) s s2 m hdel
        simp only [hscan]
        rw [head?_eraseIdx _ _ (by omega)]
        exact hh
    have hfold : runDeletesTolerant uid (p :: ps) s =
        runDeletesTolerant uid ps (match deleteTask uid (p : Int) s with
          | .ok (s2, _) => s2
          | .error _ => s) := by
      simp only [runDeletesTolerant, List.foldl_cons]
    rw [hfold]
    exact ih (fun q hq => hmem q (List.mem_cons_of_mem p hq)) _ hstep

theorem updateTask_eq_ok (uid : String) (pos : Int)
    (t? d? : Option String) (now : Nat) (s : Store) (h : uid ≠ "")
    (hf : ¬(t? = none ∧ d? = none)) (h1 : 1 ≤ pos)
    (h2 : pos ≤ ((userScan uid s).length : Int)) :
    updateTask uid pos t? d? now s =
      .ok ({ s with rows := modifyNthWhere (fun t => t.user_id == uid)
                      (fun t =>
                        { t with
                            title := t?.getD t.title,
                            description := d?.getD t.description,
                            updated_at := now })
                      (pos - 1).toNat s.rows },
           { (userScan uid s).getD (pos - 1).toNat default with
               title := t?.getD
                 ((userScan uid s).getD (pos - 1).toNat default).title,
               description := d?.getD
                 ((userScan uid s).getD (pos - 1).toNat default).description,
               updated_at := now }) := by
  simp only [updateTask]
  rw [if_neg h, if_neg hf, if_neg (by omega)]

theorem updateTask_ok_inv (uid : String) (pos : Int)
    (t? d? : Option String) (now : Nat) (s s2 : Store) (t : Task)
    (hok : updateTask uid pos t? d? now s = .ok (s2, t)) :
    uid ≠ "" ∧ ¬(t? = none ∧ d? = none) ∧ 1 ≤ pos ∧
      pos ≤ ((userScan uid s).length : Int) ∧
      t = { (userScan uid s).getD (pos - 1).toNat default with
              title := t?.getD
                ((userScan uid s).getD (pos - 1).toNat default).title,
              description := d?.getD
                ((userScan uid s).getD (pos - 1).toNat default).description,
              updated_at := now } ∧
      userScan uid s2 =
        modifyIdx
          (fun a =>
            { a with
                title := t?.getD a.title,
                description := d?.getD a.description,
                updated_at := now })
          (pos - 1).toNat (userScan uid s) := by
  by_cases h : uid = ""
  · simp [updateTask, h] at hok
  · by_cases hf : t? = none ∧ d? = none
    · simp [updateTask, h, hf] at hok
    · by_cases hr : pos < 1 ∨ pos > ((userScan uid s).length : Int)
      · simp [updateTask, h, hf, hr] at hok
      · rw [updateTask_eq_ok uid pos t? d? now s h hf (by omega) (by omega)]
          at hok
        injection hok with hpair
        injection hpair with hs2 ht
        refine ⟨h, hf, by omega, by omega, ht.symm, ?_⟩
        rw [← hs2]
        exact userScan_modify uid s (pos - 1).toNat _ (fun a => rfl)

theorem getTaskByPosition_isNotFound_iff (uid : String) (pos : Int)
    (s : Store) :
    isNotFoundB (getTaskByPosition uid pos s) = true ↔
      (pos < 1 ∨ pos > ((userScan uid s).length : Int)) := by
  by_cases hr : pos < 1 ∨ pos > ((userScan uid s).length : Int) <;>
    simp [getTaskByPosition, hr, isNotFoundB]

theorem updateTask_isNotFound_iff (uid : String) (pos : Int)
    (t? d? : Option String) (now : Nat) (s : Store) (h : uid ≠ "")
    (hf : ¬(t? = none ∧ d? = none)) :
    isNotFoundB (updateTask uid pos t? d? now s) = true ↔
      (pos < 1 ∨ pos > ((userScan uid s).length : Int)) := by
  by_cases hr : pos < 1 ∨ pos > ((userScan uid s).length : Int) <;>
    simp [updateTask, h, hf, hr, isNotFoundB]

theorem completeTask_isNotFound_iff (uid : String) (pos : Int) (c : Bool)
    (now : Nat) (s : Store) (h : uid ≠ "") :
    isNotFoundB (completeTask uid pos c now s) = true ↔
      (pos < 1 ∨ pos > ((userScan uid s).length : Int)) := by
  by_cases hr : pos < 1 ∨ pos > ((userScan uid s).length : Int) <;>
    simp [completeTask, h, hr, isNotFoundB]

theorem deleteTask_isNotFound_iff (uid : String) (pos : Int) (s : Store)
    (h : uid ≠ "") :
    isNotFoundB (deleteTask uid pos s) = true ↔
      (pos < 1 ∨ pos > ((userScan uid s).length : Int)) := by
  by_cases hr : pos < 1 ∨ pos > ((userScan uid s).length : Int) <;>
    simp [deleteTask, h, hr, isNotFoundB]

theorem tagFrom_length : ∀ (l : List Task) (i : Nat),
    (tagFrom i l).length = l.length := by
  intro l
  induction l with
  | nil => intro i; rfl
  | cons t ts ih => intro i; simp [tagFrom, ih]

theorem length_filter_partition {α : Type} (p : α → Bool) :
    ∀ l : List α,
      (l.filter (fun x => !p x)).length + (l.filter p).length = l.length := by
  intro l
  induction l with
  | nil => rfl
  | cons a as ih =>
    by_cases hp : p a <;> simp [List.filter_cons, hp] <;> omega

theorem mem_tagFrom :
    ∀ (l : List Task) (i : Nat) (tg : TaggedTask), tg ∈ tagFrom i l →
      i ≤ tg.position ∧
        (l.map toResponse).get? (tg.position - i) = some tg.resp := by
  intro l
  induction l with
  | nil => intro i tg h; simp [tagFrom] at h
  | cons t ts ih =>
    intro i tg h
    simp only [tagFrom, List.mem_cons] at h
    rcases h with rfl | h
    · exact ⟨Nat.le_refl i, by simp⟩
    · obtain ⟨h1, h2⟩ := ih (i + 1) tg h
      refine ⟨by omega, ?_⟩
      have hsub : tg.position - i = (tg.position - (i + 1)) + 1 := by omega
      rw [hsub]
      simpa using h2

/-!  The claims.  -/

/-- Claim C1: for every owner with N tasks, issuing
deleteByPosition(owner, N), ..., deleteByPosition(owner, 1) in that
order, each call re-resolving the position against a fresh full scan,
succeeds at every step and leaves the owner with zero tasks; issuing the
same set of positions in ascending order without recomputation removes
the wrong tasks after the first deletion: the task originally at
position 2 — the intended target of the second deletion — is never
removed, so the owner's collection ends up nonempty. -/
theorem claim1_bulk_delete_order (s : Store) (uid : String) (h : uid ≠ "") :
    (∃ s2, runDeletes uid (downFrom (userScan uid s).length) s = .ok s2 ∧
       userScan uid s2 = []) ∧
    (2 ≤ (userScan uid s).length →
       ∃ t, (userScan uid s).get? 1 = some t ∧
         (userScan uid
           (runDeletesTolerant uid (upTo (userScan uid s).length) s)).head? =
             some t ∧
         userScan uid
           (runDeletesTolerant uid (upTo (userScan uid s).length) s) ≠ []) := by
  constructor
  · exact runDeletes_downFrom uid h (userScan uid s).length s rfl
  · intro hN
    obtain ⟨a, b, L2, hLs⟩ : ∃ a b L2, userScan uid s = a :: b :: L2 := by
      cases hl : userScan uid s with
      | nil => rw [hl] at hN; simp at hN
      | cons x xs =>
        cases hx : xs with
        | nil => rw [hl, hx] at hN; simp at hN
        | cons y ys => exact ⟨x, y, ys, rfl⟩
    have hNval : (userScan uid s).length = L2.length + 2 := by
      rw [hLs]; simp
    have hupto : upTo (userScan uid s).length =
        1 :: upFrom 2 (L2.length + 1) := by
      rw [hNval]; rfl
    have step1 := deleteTask_eq_ok uid ((1 : Nat) : Int) s h (by omega)
      (by omega)
    have hscan1 : userScan uid
        { s with rows := eraseNthWhere (fun t => t.user_id == uid)
                  (((1 : Nat) : Int) - 1).toNat s.rows } = b :: L2 := by
      rw [userScan_erase, hLs]
      rfl
    have hfold : runDeletesTolerant uid (upTo (userScan uid s).length) s =
        runDeletesTolerant uid (upFrom 2 (L2.length + 1))
          { s with rows := eraseNthWhere (fun t => t.user_id == uid)
                    (((1 : Nat) : Int) - 1).toNat s.rows } := by
      rw [hupto]
      simp only [runDeletesTolerant, List.foldl_cons, step1]
    have hhead := tolerant_preserves_head uid b (upFrom 2 (L2.length + 1))
      (fun q hq => mem_upFrom (L2.length + 1) 2 q hq) _
      (by rw [hscan1]; rfl)
    refine ⟨b, by rw [hLs]; rfl, by rw [hfold]; exact hhead, ?_⟩
    rw [hfold]
    intro hcon
    rw [hcon] at hhead
    simp at hhead

/-- Witness for C1, at a concrete owner with three tasks: the descending
run [3, 2, 1] empties the collection; the ascending run [1, 2, 3]
without recomputation leaves the original second task behind. -/
theorem claim1_witness :
    (userScan "alice" demo3).length = 3 ∧
    (∃ s2, runDeletes "alice" (downFrom 3) demo3 = .ok s2 ∧
       userScan "alice" s2 = []) ∧
    (∃ t, (userScan "alice" demo3).get? 1 = some t ∧
       (userScan "alice" (runDeletesTolerant "alice" (upTo 3) demo3)).head? =
         some t ∧
       userScan "alice" (runDeletesTolerant "alice" (upTo 3) demo3) ≠ []) := by
  have hmain := claim1_bulk_delete_order demo3 "alice" (by decide)
  have hlen : (userScan "alice" demo3).length = 3 := by rfl
  refine ⟨hlen, ?_, ?_⟩
  · have h1 := hmain.1
    rw [hlen] at h1
    exact h1
  · have h2 := hmain.2 (by rw [hlen]; omega)
    rw [hlen] at h2
    exact h2

/-- Claim C3: for every owner whose collection holds N tasks and every
integer k, getByPosition(owner, k) returns the task at 1-indexed rank k
of the fresh full scan when 1 ≤ k ≤ N, succeeds iff 1 ≤ k ≤ N, and
fails with NotFoundError exactly when k < 1 or k > N (hence for every k
when N = 0); update, setCompletion and deleteByPosition fail with
NotFoundError under exactly the same range check (given that their own
validation preconditions — non-empty owner, at least one update field —
are met). -/
theorem claim3_position_range_check (s : Store) (uid : String) (k : Int)
    (now : Nat) (t? d? : Option String) (c : Bool) (huid : uid ≠ "")
    (hf : ¬(t? = none ∧ d? = none)) :
    ((1 ≤ k ∧ k ≤ ((userScan uid s).length : Int)) →
       getTaskByPosition uid k s =
         .ok ((userScan uid s).getD (k - 1).toNat default, (k - 1).toNat)) ∧
    (isOkB (getTaskByPosition uid k s) = true ↔
       (1 ≤ k ∧ k ≤ ((userScan uid s).length : Int))) ∧
    (isNotFoundB (getTaskByPosition uid k s) = true ↔
       (k < 1 ∨ k > ((userScan uid s).length : Int))) ∧
    (isNotFoundB (updateTask uid k t? d? now s) = true ↔
       (k < 1 ∨ k > ((userScan uid s).length : Int))) ∧
    (isNotFoundB (completeTask uid k c now s) = true ↔
       (k < 1 ∨ k > ((userScan uid s).length : Int))) ∧
    (isNotFoundB (deleteTask uid k s) = true ↔
       (k < 1 ∨ k > ((userScan uid s).length : Int))) := by
  refine ⟨?_, getTaskByPosition_isOk_iff uid k s,
    getTaskByPosition_isNotFound_iff uid k s,
    updateTask_isNotFound_iff uid k t? d? now s huid hf,
    completeTask_isNotFound_iff uid k c now s huid,
    deleteTask_isNotFound_iff uid k s huid⟩
  intro hk
  have hr : ¬(k < 1 ∨ k > ((userScan uid s).length : Int)) := by omega
  simp [getTaskByPosition, hr]

/-- Witness for C3 at a concrete owner with three tasks and k = 2
(also exercising the empty-range side through the iff at any k). -/
theorem claim3_witness :
    ("alice" ≠ "" ∧ ¬((some "x" : Option String) = none ∧
       (none : Option String) = none)) ∧
    (((1 : Int) ≤ 2 ∧ (2 : Int) ≤ ((userScan "alice" demo3).length : Int)) →
       getTaskByPosition "alice" 2 demo3 =
         .ok ((userScan "alice" demo3).getD ((2 : Int) - 1).toNat default,
              ((2 : Int) - 1).toNat)) ∧
    (isOkB (getTaskByPosition "alice" 2 demo3) = true ↔
       ((1 : Int) ≤ 2 ∧ (2 : Int) ≤ ((userScan "alice" demo3).length : Int))) ∧
    (isNotFoundB (getTaskByPosition "alice" 2 demo3) = true ↔
       ((2 : Int) < 1 ∨ (2 : Int) > ((userScan "alice" demo3).length : Int))) ∧
    (isNotFoundB (updateTask "alice" 2 (some "x") none 0 demo3) = true ↔
       ((2 : Int) < 1 ∨ (2 : Int) > ((userScan "alice" demo3).length : Int))) ∧
    (isNotFoundB (completeTask "alice" 2 true 0 demo3) = true ↔
       ((2 : Int) < 1 ∨ (2 : Int) > ((userScan "alice" demo3).length : Int))) ∧
    (isNotFoundB (deleteTask "alice" 2 demo3) = true ↔
       ((2 : Int) < 1 ∨ (2 : Int) > ((userScan "alice" demo3).length : Int))) :=
  ⟨⟨by decide, by decide⟩,
   claim3_position_range_check demo3 "alice" 2 0 (some "x") none true
     (by decide) (by decide)⟩

/-- Claim C6: list(owner) tags each task with its 1-indexed rank in the
original scan order before partitioning into pending and completed
subsets, so the pending-first display reordering never changes any
position number: every returned entry's position points back to that very
task in the fresh scan, and completing a task at one position leaves the
scan entry at every other position unchanged.  In particular, for tasks
A, B, C added in that order with none completed, list returns positions
A:1, B:2, C:3, and completing B leaves the positions of A and C
unchanged on a subsequent list call. -/
theorem claim6_list_positions (s : Store) (uid : String) (huid : uid ≠ "") :
    (∃ r, listTasks uid s = .ok r ∧
      r.tasks.length = (userScan uid s).length ∧
      (∀ tg ∈ r.tasks, 1 ≤ tg.position ∧
        ((userScan uid s).map toResponse).get? (tg.position - 1) =
          some tg.resp)) ∧
    (∀ (pos : Int) (c : Bool) (now : Nat) (s2 : Store) (t : Task),
      completeTask uid pos c now s = .ok (s2, t) →
      ∀ j : Nat, j ≠ (pos - 1).toNat →
        (userScan uid s2).get? j = (userScan uid s).get? j) ∧
    (Except.map
       (fun r => r.tasks.map (fun (tg : TaggedTask) =>
          (tg.resp.title, tg.position)))
       (listTasks "alice" demo3) = .ok [("A", 1), ("B", 2), ("C", 3)]) ∧
    (Except.map
       (fun pr => Except.map
          (fun r => r.tasks.map (fun (tg : TaggedTask) =>
             (tg.resp.title, tg.position)))
          (listTasks "alice" pr.1))
       (completeTask "alice" 2 true 7 demo3) =
         .ok (.ok [("A", 1), ("C", 3), ("B", 2)])) := by
  refine ⟨?_, ?_, by rfl, by rfl⟩
  · have heq : listTasks uid s = .ok
        { tasks := (tagFrom 1 (userScan uid s)).filter
                     (fun x => !x.resp.completed) ++
                   (tagFrom 1 (userScan uid s)).filter
                     (fun x => x.resp.completed),
          summary := { total := (userScan uid s).length,
                       pending := ((tagFrom 1 (userScan uid s)).filter
                                    (fun x => !x.resp.completed)).length,
                       completed := ((tagFrom 1 (userScan uid s)).filter
                                      (fun x => x.resp.completed)).length },
          pending_tasks := (tagFrom 1 (userScan uid s)).filter
                             (fun x => !x.resp.completed),
          completed_tasks := (tagFrom 1 (userScan uid s)).filter
                               (fun x => x.resp.completed) } := by
      simp only [listTasks]
      rw [if_neg huid]
    refine ⟨_, heq, ?_, ?_⟩
    · simp only [List.length_append]
      rw [length_filter_partition (fun x => x.resp.completed)
            (tagFrom 1 (userScan uid s))]
      exact tagFrom_length (userScan uid s) 1
    · intro tg htg
      simp only [List.mem_append, List.mem_filter] at htg
      have hmem : tg ∈ tagFrom 1 (userScan uid s) := by
        rcases htg with h | h
        · exact h.1
        · exact h.1
      exact mem_tagFrom (userScan uid s) 1 tg hmem
  · intro pos c now s2 t hc j hj
    obtain ⟨_, _, _, hscan⟩ := completeTask_ok_inv uid pos c now s s2 t hc
    rw [hscan]
    exact modifyIdx_get?_ne _ (userScan uid s) (pos - 1).toNat j hj

/-- Witness for C6 at a concrete owner with three tasks, completing the
one at position 2. -/
theorem claim6_witness :
    ("alice" ≠ "") ∧
    ((∃ r, listTasks "alice" demo3 = .ok r ∧
      r.tasks.length = (userScan "alice" demo3).length ∧
      (∀ tg ∈ r.tasks, 1 ≤ tg.position ∧
        ((userScan "alice" demo3).map toResponse).get? (tg.position - 1) =
          some tg.resp)) ∧
    (∀ (pos : Int) (c : Bool) (now : Nat) (s2 : Store) (t : Task),
      completeTask "alice" pos c now demo3 = .ok (s2, t) →
      ∀ j : Nat, j ≠ (pos - 1).toNat →
        (userScan "alice" s2).get? j = (userScan "alice" demo3).get? j) ∧
    (Except.map
       (fun r => r.tasks.map (fun (tg : TaggedTask) =>
          (tg.resp.title, tg.position)))
       (listTasks "alice" demo3) = .ok [("A", 1), ("B", 2), ("C", 3)]) ∧
    (Except.map
       (fun pr => Except.map
          (fun r => r.tasks.map (fun (tg : TaggedTask) =>
             (tg.resp.title, tg.position)))
          (listTasks "alice" pr.1))
       (completeTask "alice" 2 true 7 demo3) =
         .ok (.ok [("A", 1), ("C", 3), ("B", 2)]))) :=
  ⟨by decide, claim6_list_positions demo3 "alice" (by decide)⟩

/-- Claim C7: add(owner, title, description) fails with ValidationError
and inserts no task row whenever the title is empty or becomes empty
after trimming whitespace, or the owner is missing; when it succeeds it
inserts exactly one new task, appended to the table, with completion
flag false. -/
theorem claim7_add_validation (s : Store) (uid title description : String)
    (now : Nat) :
    (pyStrip title = "" ∨ uid = "" →
       isValidationB (addTask uid title description now s) = true ∧
       (callToolEndpoint "add_task"
          { title := some title, description := some description,
            user_id := some uid } now s).1 = s) ∧
    (pyStrip title ≠ "" ∧ uid ≠ "" →
       ∃ t, addTask uid title description now s =
              .ok ({ rows := s.rows ++ [t], nextId := s.nextId + 1 }, t) ∧
            t.completed = false) := by
  constructor
  · intro h
    have hval : isValidationB (addTask uid title description now s) = true := by
      rcases h with h | h
      · simp [addTask, h, isValidationB]
      · by_cases ht : pyStrip title = ""
        · simp [addTask, ht, isValidationB]
        · simp [addTask, ht, h, isValidationB]
    refine ⟨hval, ?_⟩
    obtain ⟨e, he⟩ : ∃ e, addTask uid title description now s = .error e := by
      cases haddr : addTask uid title description now s with
      | error e => exact ⟨e, rfl⟩
      | ok pr => rw [haddr] at hval; simp [isValidationB] at hval
    simp [callToolEndpoint, he]
  · intro h
    refine ⟨{ id := s.nextId, title := title, description := description,
              completed := false, user_id := uid, created_at := now,
              updated_at := now }, ?_, rfl⟩
    simp [addTask, h.1, h.2]

/-- Witness for C7: a blank title is rejected and leaves the empty store
untouched; a valid title inserts exactly one pending task. -/
theorem claim7_witness :
    (isValidationB (addTask "u" "   " "d" 0 store0) = true ∧
     (callToolEndpoint "add_task"
        { title := some "   ", description := some "d",
          user_id := some "u" } 0 store0).1 = store0) ∧
    (∃ t, addTask "u" "Buy milk" "d" 0 store0 =
            .ok ({ rows := store0.rows ++ [t], nextId := store0.nextId + 1 },
                 t) ∧
          t.completed = false) := by
  constructor
  · exact (claim7_add_validation store0 "u" "   " "d" 0).1 (Or.inl (by decide))
  · exact (claim7_add_validation store0 "u" "Buy milk" "d" 0).2
      ⟨by decide, by decide⟩

/-- Claim C8: update(owner, position) with neither a title nor a
description raises ValidationError and leaves every task in the store
unchanged; when at least one field is given and the call succeeds, only
the provided fields are applied — absent fields, the completion flag,
the creation timestamp and the identifier are untouched — the
updated-timestamp is refreshed, and every other scan position is
unchanged. -/
theorem claim8_update_validation (s : Store) (uid : String) (pos : Int)
    (now : Nat) :
    (isValidationB (updateTask uid pos none none now s) = true ∧
     (callToolEndpoint "update_task"
        { task_position := some pos, user_id := some uid } now s).1 = s) ∧
    (∀ (t? d? : Option String) (s2 : Store) (t : Task),
       updateTask uid pos t? d? now s = .ok (s2, t) →
       t.title = t?.getD
         ((userScan uid s).getD (pos - 1).toNat default).title ∧
       t.description = d?.getD
         ((userScan uid s).getD (pos - 1).toNat default).description ∧
       t.completed =
         ((userScan uid s).getD (pos - 1).toNat default).completed ∧
       t.id = ((userScan uid s).getD (pos - 1).toNat default).id ∧
       t.created_at =
         ((userScan uid s).getD (pos - 1).toNat default).created_at ∧
       t.updated_at = now ∧
       (∀ j : Nat, j ≠ (pos - 1).toNat →
          (userScan uid s2).get? j = (userScan uid s).get? j)) := by
  constructor
  · have hval : isValidationB (updateTask uid pos none none now s) = true := by
      by_cases hu : uid = ""
      · simp [updateTask, hu, isValidationB]
      · simp [updateTask, hu, isValidationB]
    refine ⟨hval, ?_⟩
    obtain ⟨e, he⟩ : ∃ e, updateTask uid pos none none now s = .error e := by
      cases hup : updateTask uid pos none none now s with
      | error e => exact ⟨e, rfl⟩
      | ok pr => rw [hup] at hval; simp [isValidationB] at hval
    simp [callToolEndpoint, he]
  · intro t? d? s2 t hok
    obtain ⟨_, _, _, _, ht, hscan⟩ :=
      updateTask_ok_inv uid pos t? d? now s s2 t hok
    subst ht
    refine ⟨rfl, rfl, rfl, rfl, rfl, rfl, ?_⟩
    intro j hj
    rw [hscan]
    exact modifyIdx_get?_ne _ (userScan uid s) (pos - 1).toNat j hj

/-- Witness for C8 at a concrete owner with three tasks: updating
position 2 with only a new title applies the title, keeps the
description and flag, refreshes the timestamp, and leaves positions 1
and 3 unchanged; updating with neither field is rejected and mutates
nothing. -/
theorem claim8_witness :
    (isValidationB (updateTask "alice" 2 none none 9 demo3) = true ∧
     (callToolEndpoint "update_task"
        { task_position := some 2, user_id := some "alice" } 9 demo3).1 =
       demo3) ∧
    (updateTask "alice" 2 (some "B2") none 9 demo3 =
       .ok (demo3B2, demoTaskB2)) ∧
    demoTaskB2.title = (some "B2").getD
      ((userScan "alice" demo3).getD ((2 : Int) - 1).toNat default).title ∧
    demoTaskB2.description = (none : Option String).getD
      ((userScan "alice" demo3).getD
        ((2 : Int) - 1).toNat default).description ∧
    demoTaskB2.completed =
      ((userScan "alice" demo3).getD ((2 : Int) - 1).toNat default).completed ∧
    demoTaskB2.updated_at = 9 ∧
    (userScan "alice" demo3B2).get? 0 = (userScan "alice" demo3).get? 0 ∧
    (userScan "alice" demo3B2).get? 2 = (userScan "alice" demo3).get? 2 := by
  have hmain := claim8_update_validation demo3 "alice" 2 9
  have hok : updateTask "alice" 2 (some "B2") none 9 demo3 =
      .ok (demo3B2, demoTaskB2) := by rfl
  have hparts := hmain.2 (some "B2") none demo3B2 demoTaskB2 hok
  exact ⟨hmain.1, hok, hparts.1, hparts.2.1, hparts.2.2.1,
    hparts.2.2.2.2.2.1, hparts.2.2.2.2.2.2 0 (by decide),
    hparts.2.2.2.2.2.2 2 (by decide)⟩

/-- Claim C10: for every add_task request whose title is non-empty after
trimming (and whose owner is non-empty), the stored task's title equals
the request's title exactly as supplied, including any leading or
trailing whitespace: trimming is applied only inside the validation
check, never to the persisted value. -/
theorem claim10_title_stored_untrimmed (s : Store)
    (uid title description : String) (now : Nat) (ht : pyStrip title ≠ "")
    (hu : uid ≠ "") :
    ∃ t, addTask uid title description now s =
           .ok ({ rows := s.rows ++ [t], nextId := s.nextId + 1 }, t) ∧
         t.title = title := by
  refine ⟨{ id := s.nextId, title := title, description := description,
            completed := false, user_id := uid, created_at := now,
            updated_at := now }, ?_, rfl⟩
  simp [addTask, ht, hu]

/-- Witness for C10 with a title carrying leading and trailing
whitespace: the stored title keeps the padding. -/
theorem claim10_witness :
    (pyStrip "  Buy milk  " ≠ "" ∧ "u" ≠ "") ∧
    (∃ t, addTask "u" "  Buy milk  " "" 0 store0 =
            .ok ({ rows := store0.rows ++ [t], nextId := store0.nextId + 1 },
                 t) ∧
          t.title = "  Buy milk  ") :=
  ⟨⟨by decide, by decide⟩,
   claim10_title_stored_untrimmed store0 "u" "  Buy milk  " "" 0
     (by decide) (by decide)⟩

/-- Counterexample to C2: a turn in which the model returned delete_task
calls at positions 1 then 2 for an owner with three tasks.  The
orchestrator issues the deletions in exactly that ascending order — the
issued position sequence is [1, 2], which is not strictly descending —
and as a consequence the second deletion removes the original third task
instead of the second: the owner is left with the original task B. -/
theorem claim2_counterexample :
    issuedDeletePositions
        ((execCalls "alice" 0 ascendingDeleteCalls demo3).2) = [1, 2] ∧
    ¬ List.Pairwise (fun a b : Int => a > b) [1, 2] ∧
    (userScan "alice" (execCalls "alice" 0 ascendingDeleteCalls demo3).1).map
        (fun t => t.title) = ["B"] := by
  refine ⟨by rfl, ?_, by rfl⟩
  intro h
  have := List.rel_of_pairwise_cons h (List.mem_singleton.mpr rfl)
  omega

/-- Claim C2, amended: the chat_endpoint orchestrator performs no
reordering at all.  It executes the tool invocations — deletions
included — in exactly the order the model returned them: the recorded
sequence of (tool name, task_position) pairs equals that of the model's
response.  Descending deletion order is requested only through the
natural-language system instructions sent to the model; it is not
enforced in code. -/
theorem claim2_no_reordering (auth : String) (now : Nat)
    (calls : List ToolCall) (s : Store) :
    ((execCalls auth now calls s).2).map
        (fun inv => (inv.name, inv.params.task_position)) =
      calls.map (fun c => (c.name, c.args.task_position)) := by
  induction calls generalizing s with
  | nil => rfl
  | cons c cs ih => simp [execCalls, ih]

/-- Counterexample to C4: in a TodoAgent.process_message turn with
authenticated caller alice, an add_task call in which the model supplied
user_id mallory is executed with user_id mallory — the task is stored
under mallory, not under the authenticated caller — because that loop
injects the authenticated id only when the model omitted the field. -/
theorem claim4_counterexample :
    (agentExecCalls "alice" 0 [callMallory] store0).1.rows.map
        (fun t => t.user_id) = ["mallory"] ∧
    ((agentExecCalls "alice" 0 [callMallory] store0).2).map
        (fun inv => inv.params.user_id) = [some "mallory"] ∧
    "mallory" ≠ "alice" :=
  ⟨by rfl, by rfl, by decide⟩

/-- Claim C4, amended: in the chat_endpoint orchestrator the
authenticated caller's identifier is unconditionally written over
whatever user_id the model supplied, so every executed tool invocation
carries user_id = authenticated caller, and the whole turn — final store
and recorded trace — depends only on the tool calls with their
model-supplied user_id erased (two runs differing only in model-supplied
user_id values are identical).  In TodoAgent.process_message, by
contrast, the injection happens only when the model omitted user_id, so
a model-supplied value reaches the store (see the counterexample). -/
theorem claim4_user_id_injection (auth : String) (now : Nat) :
    (∀ (calls : List ToolCall) (s : Store),
       ∀ inv ∈ (execCalls auth now calls s).2,
         inv.params.user_id = some auth) ∧
    (∀ (calls1 calls2 : List ToolCall) (s : Store),
       calls1.map scrubUserId = calls2.map scrubUserId →
       execCalls auth now calls1 s = execCalls auth now calls2 s) := by
  constructor
  · intro calls
    induction calls with
    | nil => intro s inv h; simp [execCalls] at h
    | cons c cs ih =>
      intro s inv h
      simp only [execCalls, List.mem_cons] at h
      rcases h with rfl | h
      · rfl
      · exact ih _ inv h
  · intro calls1
    induction calls1 with
    | nil =>
      intro calls2 s heq
      have : calls2 = [] := by
        cases calls2 with
        | nil => rfl
        | cons _ _ => simp [scrubUserId] at heq
      rw [this]
    | cons c cs ih =>
      intro calls2 s heq
      cases calls2 with
      | nil => simp [scrubUserId] at heq
      | cons c2 cs2 =>
        simp only [List.map_cons, List.cons.injEq] at heq
        obtain ⟨hc, hcs⟩ := heq
        obtain ⟨cid, cname, ct, cd, cp, cc, cu, cti⟩ := c
        obtain ⟨cid2, cname2, ct2, cd2, cp2, cc2, cu2, cti2⟩ := c2
        simp only [scrubUserId, ToolCall.mk.injEq, ToolArgs.mk.injEq]
          at hc
        obtain ⟨h1, h2, h3, h4, h5, h6, _, h7⟩ := hc
        subst h1; subst h2; subst h3; subst h4; subst h5; subst h6
        subst h7
        simp only [execCalls]
        rw [ih cs2 _ hcs]

/-- Witness for the amended C4: two concrete one-call turns, identical
except that the model supplied user_id mallory in one and nothing in the
other, produce identical stores and traces, and the executed invocation
carries the authenticated caller's id. -/
theorem claim4_witness :
    ([callMallory].map scrubUserId = [callNoUser].map scrubUserId) ∧
    execCalls "alice" 0 [callMallory] store0 =
      execCalls "alice" 0 [callNoUser] store0 ∧
    (∀ inv ∈ (execCalls "alice" 0 [callMallory] store0).2,
       inv.params.user_id = some "alice") :=
  ⟨by rfl,
   (claim4_user_id_injection "alice" 0).2 [callMallory] [callNoUser] store0
     (by rfl),
   (claim4_user_id_injection "alice" 0).1 [callMallory] store0⟩

/-- Counterexample to C5: in a turn that adds one task, the tool result
fed back to the model in the second call contains the stored task's
opaque identifier — exactly the identifier now carried by the row in the
store.  TaskResponse, which server.py returns for add/list/update/
complete, includes the id field, and chat_endpoint feeds the whole
result back as the tool message. -/
theorem claim5_counterexample :
    feedbackIds ((execCalls "alice" 0 [callAddMilk] store0).2) = [0] ∧
    ((execCalls "alice" 0 [callAddMilk] store0).1.rows.map
        (fun t => t.id)) = [0] :=
  ⟨by rfl, by rfl⟩

/-- Claim C5, amended: the storage identifier is kept out of the tool
schemas presented to the model — no tool parameter is named id, task_id
or user_id — but it is not kept out of the tool results fed back to the
model in the second call (see the counterexample); keeping it out of the
user-facing reply is delegated to prompt instructions. -/
theorem claim5_schema_has_no_ids :
    ∀ sch ∈ mcpToolSchemas,
      "id" ∉ sch.2 ∧ "task_id" ∉ sch.2 ∧ "user_id" ∉ sch.2 := by
  decide

/-- Witness for the amended C5 at the add_task schema entry. -/
theorem claim5_witness :
    (("add_task", ["title", "description"]) ∈ mcpToolSchemas) ∧
    ("id" ∉ ["title", "description"] ∧
     "task_id" ∉ ["title", "description"] ∧
     "user_id" ∉ ["title", "description"]) :=
  ⟨by decide,
   claim5_schema_has_no_ids ("add_task", ["title", "description"])
     (by decide)⟩

/-- Counterexample to C9: when the second model call yields no text and
the final message still carries a tool call, the reply is the fixed
string from the (or)-default, not the confirmation naming the count of
operations performed. -/
theorem claim9_counterexample :
    computeFinalContent none 1 2 = "Operation completed successfully." ∧
    computeFinalContent none 1 2 ≠ countMessage 2 :=
  ⟨by rfl, by decide⟩

/-- Claim C9, amended: when the second model call yields no text the
orchestrator does return a non-empty generic confirmation rather than
empty text or a failure — but it is always the fixed string "Operation
completed successfully." supplied by the (or)-default; the branch that
names the count of operations is unreachable, because the default has
already made the content non-empty. -/
theorem claim9_fallback_fixed_string (content : Option String)
    (finalToolCalls opsCount : Nat) :
    computeFinalContent content finalToolCalls opsCount =
      pythonOr content "Operation completed successfully." ∧
    computeFinalContent content finalToolCalls opsCount ≠ "" := by
  have hc : pythonOr content "Operation completed successfully." ≠ "" := by
    unfold pythonOr
    cases content with
    | none => decide
    | some str =>
      by_cases hs : str = ""
      · simp [hs]
      · simp [hs]
  have heq : computeFinalContent content finalToolCalls opsCount =
      pythonOr content "Operation completed successfully." := by
    simp only [computeFinalContent]
    rw [if_neg (fun h => hc h.1)]
  exact ⟨heq, heq ▸ hc⟩

end TodoSpec
